import Mathlib

/-!
Shallow embedding of the core of the Sushi Telegram Bot backend
(`backend/database.py`, `backend/bot.py`, `backend/models.py`).

Modelling conventions:
* Mongo collections become Lean lists of records; `find_one` becomes
  `List.find?`, `update_one` with `$set` becomes an update of the first
  matching record, `delete_many` becomes `List.filter`, `delete_one`
  removes the first matching record.
* The `counters` collection is a finite map `String → Option Int`
  (`none` = no counter document for that `_id`).
* Python floats holding money amounts are embedded as exact rationals.
* `context.user_data` becomes an explicit record of optional fields.
* The outcome of a conversation handler is the returned conversation
  state together with the updated database / context; outbound Telegram
  messages are not modelled (they do not affect the persisted state).
-/

set_option autoImplicit false

namespace SushiBot

/-- One cart line, mirroring `models.CartItem`
(`product_id`, `product_name`, `quantity`, `price`). -/
structure CartItem where
  product_id : String
  product_name : String
  quantity : Int
  price : ℚ
  deriving DecidableEq

/-- A user document, mirroring the fields of `models.User` that the cart
operations read or write. -/
structure UserDoc where
  telegram_id : Int
  phone : Option String
  cart : List CartItem
  deriving DecidableEq

/-- A category document, mirroring `models.Category`. -/
structure CategoryDoc where
  id : String
  name : String
  parent_id : Option String
  order : Int
  deriving DecidableEq

/-- A product document, mirroring `models.Product`. -/
structure ProductDoc where
  id : String
  name : String
  description : String
  price : ℚ
  category_id : String
  is_active : Bool
  deriving DecidableEq

/-- An order document, mirroring `models.Order` (the `id`/`created_at`
fields, which no claim mentions, are omitted). -/
structure OrderDoc where
  order_number : Int
  user_telegram_id : Int
  user_name : Option String
  phone : Option String
  items : List CartItem
  total : ℚ
  delivery_cost : ℚ
  delivery_type : Option String
  address : Option String
  comment : Option String
  status : String
  deriving DecidableEq

/-- An admin document, mirroring the fields of `models.Admin` used by
`database.add_admin`. -/
structure AdminDoc where
  telegram_id : Int
  added_by : Int
  deriving DecidableEq

/-- The `counters` collection: for each `_id` string, the current `seq`
value, or `none` when no counter document with that `_id` exists. -/
def Counters : Type := String → Option Int

/-- The database state: one field per Mongo collection that the claims
touch. -/
structure Db where
  users : List UserDoc
  categories : List CategoryDoc
  products : List ProductDoc
  orders : List OrderDoc
  admins : List AdminDoc
  counters : Counters

/-- `counters_collection.find_one_and_update({"_id": cid}, {"$inc": {"seq": 1}},
upsert=True, return_document=True)`: an absent document is created as if its
`seq` were `0`, the stored `seq` is incremented by one atomically, and the
post-update value is returned. -/
def find_one_and_update_inc (cs : Counters) (cid : String) : Int × Counters :=
  let newSeq := (cs cid).getD 0 + 1
  (newSeq, fun n => if n = cid then some newSeq else cs n)

/-- `database.get_next_order_number`: atomic find-and-increment of the
counter document with `_id = "order_number"`. -/
def get_next_order_number (cs : Counters) : Int × Counters :=
  find_one_and_update_inc cs "order_number"

/-- The list of values returned by `n` successive calls to
`get_next_order_number`, starting from counter state `cs`. -/
def runSeq (cs : Counters) : Nat → List Int
  | 0 => []
  | n + 1 =>
    let r := get_next_order_number cs
    r.1 :: runSeq r.2 n

/-- The in-memory cart transformation performed by `database.add_to_cart`:
the first line with the given `product_id` has its quantity incremented
(name and price left untouched); when no line matches, a new line is
appended at the end. -/
def addItem : List CartItem → String → String → Int → ℚ → List CartItem
  | [], pid, pname, qty, price => [⟨pid, pname, qty, price⟩]
  | it :: rest, pid, pname, qty, price =>
    if it.product_id = pid then { it with quantity := it.quantity + qty } :: rest
    else it :: addItem rest pid pname qty price

/-- The in-memory cart transformation performed by
`database.update_cart_item_quantity`: the first line with the given
`product_id` is removed when `qty ≤ 0` and has its quantity overwritten
otherwise; the loop breaks after the first match, and a cart without a
matching line is written back unchanged. -/
def setItemQuantity : List CartItem → String → Int → List CartItem
  | [], _, _ => []
  | it :: rest, pid, qty =>
    if it.product_id = pid then
      if qty ≤ 0 then rest else { it with quantity := qty } :: rest
    else it :: setItemQuantity rest pid qty

/-- The first cart line with the given `product_id`, if any. -/
def findLine (cart : List CartItem) (pid : String) : Option CartItem :=
  cart.find? fun it => it.product_id = pid

/-- `users_collection.update_one({"telegram_id": tid}, {"$set": {"cart": cart}})`:
replaces the cart of the first user document matching `tid`; a no-op when no
user matches. -/
def set_cart_of_user : List UserDoc → Int → List CartItem → List UserDoc
  | [], _, _ => []
  | u :: rest, tid, cart =>
    if u.telegram_id = tid then { u with cart := cart } :: rest
    else u :: set_cart_of_user rest tid cart

/-- `database.add_to_cart`: looks the user up; when found, merges the new
line into the cart and writes the cart back; when the user is unknown the
function falls through without touching the database. -/
def add_to_cart (db : Db) (tid : Int) (pid pname : String) (qty : Int) (price : ℚ) : Db :=
  match db.users.find? (fun u => u.telegram_id = tid) with
  | none => db
  | some u =>
    { db with users := set_cart_of_user db.users tid (addItem u.cart pid pname qty price) }

/-- `database.update_cart_item_quantity`: looks the user up; when found,
rewrites the cart through `setItemQuantity`; unknown users are a no-op. -/
def update_cart_item_quantity (db : Db) (tid : Int) (pid : String) (qty : Int) : Db :=
  match db.users.find? (fun u => u.telegram_id = tid) with
  | none => db
  | some u =>
    { db with users := set_cart_of_user db.users tid (setItemQuantity u.cart pid qty) }

/-- `database.clear_cart`: `update_one` setting the user's cart to the
empty list (a no-op when no user document matches). -/
def clear_cart (db : Db) (tid : Int) : Db :=
  { db with users := set_cart_of_user db.users tid [] }

/-- `database.get_user_cart`: the cart of the matching user document, or
the empty list when the user is unknown. -/
def get_user_cart (db : Db) (tid : Int) : List CartItem :=
  match db.users.find? (fun u => u.telegram_id = tid) with
  | none => []
  | some u => u.cart

/-- `database.create_order`: draws the next order number from the counter,
builds an `Order` document with `status = "new"` and inserts it into the
`orders` collection; returns the created document. -/
def create_order (db : Db) (tid : Int) (uname phone : Option String)
    (items : List CartItem) (total : ℚ) (dtype : Option String)
    (dcost : ℚ) (addr comment : Option String) : OrderDoc × Db :=
  let r := get_next_order_number db.counters
  let order : OrderDoc :=
    { order_number := r.1, user_telegram_id := tid, user_name := uname,
      phone := phone, items := items, total := total, delivery_cost := dcost,
      delivery_type := dtype, address := addr, comment := comment, status := "new" }
  (order, { db with counters := r.2, orders := db.orders ++ [order] })

/-- The checkout slice of `context.user_data`: every field is optional
because `user_data.get` may find it absent. -/
structure CheckoutCtx where
  checkout_cart : List CartItem
  delivery_type : Option String
  delivery_cost : Option ℚ
  address : Option String
  customer_name : Option String
  phone : Option String
  comment : Option String
  deriving DecidableEq

/-- Conversation states of the checkout `ConversationHandler`;
`conv_end` stands for `ConversationHandler.END` (back to the idle,
no-active-conversation condition). -/
inductive CheckoutState
  | waiting_delivery_type
  | waiting_address
  | waiting_name
  | waiting_phone
  | waiting_comment
  | confirm_order_state
  | conv_end
  deriving DecidableEq

/-- `bot.DELIVERY_COST` (4.0 BYN). -/
def DELIVERY_COST : ℚ := 4

/-- `bot.PICKUP_ADDRESS`. -/
def PICKUP_ADDRESS : String := "Новый Свержень, Железнодорожная 12а"

/-- `bot.delivery_type_callback`: dispatch on the button payload.
`checkout_cancel` ends the conversation; `delivery_pickup` records pickup
with zero delivery cost and the pickup address, then awaits the name;
`delivery_delivery` records delivery with `DELIVERY_COST`, then awaits the
address; any other payload leaves state and context alone (the handler
returns `None`, which keeps the current state). -/
def delivery_type_callback (ud : CheckoutCtx) (data : String) : CheckoutState × CheckoutCtx :=
  if data = "checkout_cancel" then (.conv_end, ud)
  else if data = "delivery_pickup" then
    (.waiting_name,
      { ud with delivery_type := some "pickup", delivery_cost := some 0,
                address := some PICKUP_ADDRESS })
  else if data = "delivery_delivery" then
    (.waiting_address,
      { ud with delivery_type := some "delivery", delivery_cost := some DELIVERY_COST })
  else (.waiting_delivery_type, ud)

/-- Σ quantity · unitPrice over a cart, as computed by
`sum(item["price"] * item["quantity"] for item in cart)`. -/
def cartTotal (cart : List CartItem) : ℚ :=
  (cart.map fun it => it.price * (it.quantity : ℚ)).sum

/-- The confirm branch of `bot.confirm_order_callback`: reads the snapshot
cart and the accumulated checkout context, computes the items total, calls
`database.create_order` and then `database.clear_cart`; returns the created
order and the updated database. -/
def confirm_order_action (db : Db) (tid : Int) (ud : CheckoutCtx) : OrderDoc × Db :=
  let total := cartTotal ud.checkout_cart
  let r := create_order db tid ud.customer_name ud.phone ud.checkout_cart total
    ud.delivery_type (ud.delivery_cost.getD 0) ud.address ud.comment
  (r.1, clear_cart r.2 tid)

/-- `bot.confirm_order_callback`: on the `cancel_order` payload it only
sends messages and returns `ConversationHandler.END`, performing no
database call and no `user_data` mutation; otherwise it runs the confirm
branch. Either way the returned state is `END`. -/
def confirm_order_callback (db : Db) (tid : Int) (ud : CheckoutCtx) (data : String) :
    CheckoutState × Db :=
  if data = "cancel_order" then (.conv_end, db)
  else (.conv_end, (confirm_order_action db tid ud).2)

/-- `database.add_admin`: returns `none` (the "already exists" sentinel)
without touching the collection when an admin document with this
`telegram_id` exists, and otherwise inserts a new document and returns it. -/
def add_admin (db : Db) (tid addedBy : Int) : Option AdminDoc × Db :=
  match db.admins.find? (fun a => a.telegram_id = tid) with
  | some _ => (none, db)
  | none =>
    let a : AdminDoc := ⟨tid, addedBy⟩
    (some a, { db with admins := db.admins ++ [a] })

/-- Conversation states of the admin `ConversationHandler` that the claims
touch; `admin_conv_end` stands for `ConversationHandler.END`. -/
inductive AdminState
  | admin_add_admin
  | admin_add_product_price
  | admin_add_product_image
  | admin_conv_end
  deriving DecidableEq

/-- The admin-flow slice of `context.user_data` used by the add-product
dialogue. -/
structure AdminCtx where
  new_product_name : Option String
  new_product_desc : Option String
  new_product_price : Option ℚ
  deriving DecidableEq

/-- The digit list `ds` read as a decimal natural number. -/
def digitsToNat (ds : List Char) : Nat :=
  ds.foldl (fun a c => a * 10 + (c.toNat - 48)) 0

/-- Model of Python `int(text)` on the inputs the bot receives: `some`
exactly when the whole string is an optionally signed decimal integer
literal. -/
def parse_int (s : String) : Option Int :=
  let digits := fun (l : List Char) (neg : Bool) =>
    if l.isEmpty || !(l.all Char.isDigit) then none
    else if neg then some (-(digitsToNat l : Int)) else some (digitsToNat l : Int)
  match s.toList with
  | '-' :: l => digits l true
  | '+' :: l => digits l false
  | l => digits l false

/-- `text.replace(",", ".")`: for the single-character pattern used by the
price handler this is exactly a character-wise substitution. -/
def replace_commas (s : String) : String :=
  String.mk (s.toList.map fun c => if c = ',' then '.' else c)

/-- Model of Python `float(text)` on plain decimal literals: an optional
sign, an integer part, and an optional fractional part after one dot, with
at least one digit overall (exponent forms, `inf` and `nan` — which no bot
user input is expected to use — are treated as parse failures). -/
def parse_float (s : String) : Option ℚ :=
  let p := fun (l : List Char) (neg : Bool) =>
    let intPart := l.takeWhile Char.isDigit
    let rest := l.dropWhile Char.isDigit
    let val := fun (q : ℚ) => if neg then some (-q) else some q
    match rest with
    | [] => if intPart.isEmpty then none else val (digitsToNat intPart)
    | '.' :: frac =>
      if frac.all Char.isDigit && !(intPart.isEmpty && frac.isEmpty) then
        val ((digitsToNat intPart : ℚ) + (digitsToNat frac : ℚ) / (10 : ℚ) ^ frac.length)
      else none
    | _ => none
  match s.toList with
  | '-' :: l => p l true
  | '+' :: l => p l false
  | l => p l false

/-- `bot.admin_add_admin_handler`: parses the message text with `int`;
on success calls `database.add_admin` and replies; on `ValueError` only
replies with a format error.  Every path falls through to
`return ConversationHandler.END`. -/
def admin_add_admin_handler (db : Db) (senderId : Int) (text : String) :
    AdminState × Db :=
  match parse_int text with
  | some newAdminId => (.admin_conv_end, (add_admin db newAdminId senderId).2)
  | none => (.admin_conv_end, db)

/-- `bot.admin_add_product_price_handler`: parses
`float(text.replace(",", "."))`; on success stores the price in
`user_data` and moves to the image state; on `ValueError` re-prompts and
returns `ADMIN_ADD_PRODUCT_PRICE`, leaving the context untouched. -/
def admin_add_product_price_handler (ud : AdminCtx) (text : String) :
    AdminState × AdminCtx :=
  match parse_float (replace_commas text) with
  | some price => (.admin_add_product_image, { ud with new_product_price := some price })
  | none => (.admin_add_product_price, ud)

/-- `categories_collection.delete_one({"id": cid})`: removes the first
category document whose `id` matches. -/
def delete_one_category : List CategoryDoc → String → List CategoryDoc
  | [], _ => []
  | c :: rest, cid => if c.id = cid then rest else c :: delete_one_category rest cid

/-- `database.delete_category`: first `delete_many` of the direct
subcategories (`parent_id == cid`), then `delete_one` of the category
itself, then `delete_many` of the products with `category_id == cid`
(the boolean success flag the source returns is not modelled). -/
def delete_category (db : Db) (cid : String) : Db :=
  { db with
    categories :=
      delete_one_category (db.categories.filter fun c => !(c.parent_id = some cid : Bool)) cid,
    products := db.products.filter fun p => !(p.category_id = cid : Bool) }

/-- One step of the broadcast loop in `bot.admin_broadcast_handler`:
the send is attempted inside `try`, so a failing recipient only skips the
`success_count += 1`; the second component records each recipient for whom
a send was attempted, in loop order. -/
def broadcast_step (deliver : Int → Bool) (acc : Nat × List Int) (tid : Int) :
    Nat × List Int :=
  if deliver tid then (acc.1 + 1, acc.2 ++ [tid]) else (acc.1, acc.2 ++ [tid])

/-- `bot.admin_broadcast_handler`: iterates over all subscribers, attempts
a send to each, counts successes, and reports
`success_count` out of `len(subscribers)`.  `deliver tid = false` models
`bot.send_message` raising (the exception is caught and logged). -/
def admin_broadcast_handler (subs : List Int) (deliver : Int → Bool) :
    Nat × List Int :=
  subs.foldl (broadcast_step deliver) (0, [])

/-- `bot.notify_new_order`: iterates over the notification receivers and
attempts a send to each inside `try/except`; returns the receivers whose
send succeeded and those whose failure was caught and logged, in loop
order. -/
def notify_new_order (receivers : List Int) (deliver : Int → Bool) :
    List Int × List Int :=
  receivers.foldl
    (fun acc tid => if deliver tid then (acc.1 ++ [tid], acc.2) else (acc.1, acc.2 ++ [tid]))
    ([], [])

/-- The cart invariants of the spec's data model: at most one line per
`product_id`, and every stored quantity is at least 1. -/
def CartWf (cart : List CartItem) : Prop :=
  (cart.map fun it => it.product_id).Nodup ∧ ∀ it ∈ cart, 1 ≤ it.quantity

instance (cart : List CartItem) : Decidable (CartWf cart) := by
  unfold CartWf; infer_instance

/-- A database with every collection empty and no counter documents. -/
def emptyDb : Db :=
  { users := [], categories := [], products := [], orders := [],
    admins := [], counters := fun _ => none }

/-- A checkout context with nothing accumulated yet. -/
def emptyCheckoutCtx : CheckoutCtx :=
  { checkout_cart := [], delivery_type := none, delivery_cost := none,
    address := none, customer_name := none, phone := none, comment := none }

/-- The cart of the end-to-end scenario:
`{productA: qty 2 @ 24.90, productB: qty 1 @ 1.50}`. -/
def demoCart : List CartItem :=
  [{ product_id := "productA", product_name := "Product A", quantity := 2, price := 249/10 },
   { product_id := "productB", product_name := "Product B", quantity := 1, price := 3/2 }]

/-- The checkout context obtained by snapshotting `demoCart` at checkout
and pressing the pickup button. -/
def demoPickupCtx : CheckoutCtx :=
  (delivery_type_callback { emptyCheckoutCtx with checkout_cart := demoCart } "delivery_pickup").2

/-- A concrete catalog: top-level category `c` with subcategories `s1`,
`s2`, a product `p1` in `c` and a product `p2` in the subcategory `s1`. -/
def demoCatalogDb : Db :=
  { emptyDb with
    categories :=
      [{ id := "c", name := "Top", parent_id := none, order := 0 },
       { id := "s1", name := "Sub1", parent_id := some "c", order := 1 },
       { id := "s2", name := "Sub2", parent_id := some "c", order := 2 }],
    products :=
      [{ id := "p1", name := "P1", description := "", price := 1, category_id := "c",
         is_active := true },
       { id := "p2", name := "P2", description := "", price := 1, category_id := "s1",
         is_active := true }] }

/-! ### Sequence generator (C1) -/

lemma runSeq_lt (cs : Counters) (n : Nat) :
    ∀ x ∈ runSeq cs n, (cs "order_number").getD 0 < x := by
  induction n generalizing cs with
  | zero => simp [runSeq]
  | succ n ih =>
    intro x hx
    simp only [runSeq, get_next_order_number, find_one_and_update_inc,
      List.mem_cons] at hx
    rcases hx with h | h
    · omega
    · have := ih _ x h
      simp at this
      omega

lemma runSeq_pairwise (cs : Counters) (n : Nat) :
    (runSeq cs n).Pairwise (· < ·) := by
  induction n generalizing cs with
  | zero => simp [runSeq]
  | succ n ih =>
    refine List.Pairwise.cons ?_ (ih _)
    intro x hx
    have := runSeq_lt _ n x hx
    simp [get_next_order_number, find_one_and_update_inc] at this ⊢
    omega

/-- C1: every call to `get_next_order_number` returns a value strictly
greater than every value previously returned, so no value is ever returned
twice, and the first call on a fresh counter state (no `order_number`
document yet) returns exactly 1. -/
theorem get_next_order_number_spec (cs : Counters) (n : Nat) :
    (runSeq cs n).Pairwise (· < ·) ∧
    (cs "order_number" = none → 0 < n → (runSeq cs n).head? = some 1) := by
  refine ⟨runSeq_pairwise cs n, fun h hn => ?_⟩
  cases n with
  | zero => omega
  | succ n =>
    simp [runSeq, get_next_order_number, find_one_and_update_inc, h]

/-- Witness for C1: three calls on the fresh counter state. -/
theorem get_next_order_number_spec_witness :
    (runSeq (fun _ => none) 3).Pairwise (· < ·) ∧
    (runSeq (fun _ => none) 3).head? = some 1 :=
  ⟨(get_next_order_number_spec (fun _ => none) 3).1,
   (get_next_order_number_spec (fun _ => none) 3).2 rfl (by decide)⟩

/-! ### Cancelled checkout leaves everything as it was (C8) -/

/-- C8: pressing cancel at the confirmation step returns
`ConversationHandler.END` (the session leaves the checkout conversation)
and performs no database mutation: orders, counters and every user's cart
are exactly as before. -/
theorem cancel_order_spec (db : Db) (tid : Int) (ud : CheckoutCtx) :
    confirm_order_callback db tid ud "cancel_order" = (CheckoutState.conv_end, db) ∧
    (confirm_order_callback db tid ud "cancel_order").2.orders = db.orders ∧
    (confirm_order_callback db tid ud "cancel_order").2.counters = db.counters ∧
    (∀ t : Int, get_user_cart (confirm_order_callback db tid ud "cancel_order").2 t =
      get_user_cart db t) := by
  exact ⟨rfl, rfl, rfl, fun t => rfl⟩

/-! ### Notification fan-out (C9) -/

lemma broadcast_foldl (deliver : Int → Bool) (subs : List Int) (c0 : Nat) (l0 : List Int) :
    subs.foldl (broadcast_step deliver) (c0, l0) =
      (c0 + (subs.filter deliver).length, l0 ++ subs) := by
  induction subs generalizing c0 l0 with
  | nil => simp
  | cons a rest ih =>
    by_cases h : deliver a
    · simp [broadcast_step, h, ih, List.filter_cons]
      omega
    · simp [broadcast_step, h, ih, List.filter_cons]

lemma notify_foldl (deliver : Int → Bool) (rs ok0 f0 : List Int) :
    rs.foldl
      (fun acc tid => if deliver tid then (acc.1 ++ [tid], acc.2) else (acc.1, acc.2 ++ [tid]))
      (ok0, f0) =
      (ok0 ++ rs.filter deliver, f0 ++ rs.filter fun t => !(deliver t)) := by
  induction rs generalizing ok0 f0 with
  | nil => simp
  | cons a rest ih =>
    by_cases h : deliver a <;> simp [h, ih, List.filter_cons]

lemma filter_length_split (l : List Int) (p : Int → Bool) :
    (l.filter p).length + (l.filter fun t => !(p t)).length = l.length := by
  induction l with
  | nil => simp
  | cons a rest ih =>
    by_cases h : p a <;> simp [List.filter_cons, h] <;> omega

/-- C9: the broadcast loop attempts a send to every subscriber regardless
of earlier failures, and reports a success count equal to the number of
subscribers whose send succeeded (hence at most the number of
subscribers); the new-order fan-out likewise attempts every receiver,
splitting them into delivered and caught-and-logged failures. -/
theorem notification_fanout_spec (subs receivers : List Int) (deliver : Int → Bool) :
    (admin_broadcast_handler subs deliver).2 = subs ∧
    (admin_broadcast_handler subs deliver).1 = (subs.filter deliver).length ∧
    (admin_broadcast_handler subs deliver).1 ≤ subs.length ∧
    (notify_new_order receivers deliver).1 = receivers.filter deliver ∧
    (notify_new_order receivers deliver).2 = (receivers.filter fun t => !(deliver t)) ∧
    (notify_new_order receivers deliver).1.length +
      (notify_new_order receivers deliver).2.length = receivers.length := by
  have hb := broadcast_foldl deliver subs 0 []
  have hn := notify_foldl deliver receivers [] []
  refine ⟨?_, ?_, ?_, ?_, ?_, ?_⟩
  · simp [admin_broadcast_handler, hb]
  · simp [admin_broadcast_handler, hb]
  · simpa [admin_broadcast_handler, hb] using List.length_filter_le deliver subs
  · simp [notify_new_order, hn]
  · simp [notify_new_order, hn]
  · simpa [notify_new_order, hn] using filter_length_split receivers deliver

/-! ### Cart invariants and cart algebra (C3, C4, C5) -/

lemma mem_map_product_id_addItem (cart : List CartItem) (pid pname : String)
    (qty : Int) (price : ℚ) (x : String) :
    x ∈ (addItem cart pid pname qty price).map (fun it => it.product_id) ↔
      x ∈ cart.map (fun it => it.product_id) ∨ x = pid := by
  induction cart with
  | nil => simp [addItem]
  | cons it rest ih =>
    by_cases h : it.product_id = pid
    · simp [addItem, h]
      tauto
    · simp only [addItem, if_neg h, List.map_cons, List.mem_cons, ih]
      tauto

lemma addItem_wf (cart : List CartItem) (pid pname : String) (qty : Int) (price : ℚ)
    (hw : CartWf cart) (hq : 1 ≤ qty) :
    CartWf (addItem cart pid pname qty price) := by
  induction cart with
  | nil =>
    refine ⟨by simp [addItem], ?_⟩
    intro it hit
    simp only [addItem, List.mem_singleton] at hit
    simp [hit, hq]
  | cons it rest ih =>
    obtain ⟨hnd, hqs⟩ := hw
    simp only [List.map_cons, List.nodup_cons] at hnd
    by_cases h : it.product_id = pid
    · refine ⟨?_, ?_⟩
      · simpa [addItem, h] using hnd
      · intro x hx
        simp only [addItem, if_pos h, List.mem_cons] at hx
        rcases hx with hx | hx
        · have h1 := hqs it (List.mem_cons_self it rest)
          simp [hx]
          omega
        · exact hqs x (List.mem_cons_of_mem it hx)
    · have ihw := ih ⟨hnd.2, fun x hx => hqs x (List.mem_cons_of_mem it hx)⟩
      refine ⟨?_, ?_⟩
      · simp only [addItem, if_neg h, List.map_cons, List.nodup_cons]
        refine ⟨?_, ihw.1⟩
        rw [mem_map_product_id_addItem]
        push_neg
        exact ⟨fun hmem => hnd.1 hmem, h⟩
      · intro x hx
        simp only [addItem, if_neg h, List.mem_cons] at hx
        rcases hx with hx | hx
        · exact hx ▸ hqs it (List.mem_cons_self it rest)
        · exact ihw.2 x hx

lemma mem_map_product_id_setItemQuantity (cart : List CartItem) (pid : String)
    (qty : Int) (x : String)
    (hx : x ∈ (setItemQuantity cart pid qty).map (fun it => it.product_id)) :
    x ∈ cart.map (fun it => it.product_id) := by
  induction cart with
  | nil => simp [setItemQuantity] at hx
  | cons it rest ih =>
    by_cases h : it.product_id = pid
    · by_cases hq : qty ≤ 0
      · simp only [setItemQuantity, if_pos h, if_pos hq] at hx
        simp only [List.map_cons, List.mem_cons]
        exact Or.inr hx
      · simp only [setItemQuantity, if_pos h, if_neg hq, List.map_cons,
          List.mem_cons] at hx ⊢
        exact hx
    · simp only [setItemQuantity, if_neg h, List.map_cons, List.mem_cons] at hx ⊢
      tauto

lemma setItemQuantity_wf (cart : List CartItem) (pid : String) (qty : Int)
    (hw : CartWf cart) :
    CartWf (setItemQuantity cart pid qty) := by
  induction cart with
  | nil => exact ⟨by simp [setItemQuantity], by simp [setItemQuantity]⟩
  | cons it rest ih =>
    obtain ⟨hnd, hqs⟩ := hw
    simp only [List.map_cons, List.nodup_cons] at hnd
    have hwrest : CartWf rest := ⟨hnd.2, fun x hx => hqs x (List.mem_cons_of_mem it hx)⟩
    by_cases h : it.product_id = pid
    · by_cases hq : qty ≤ 0
      · simpa only [setItemQuantity, if_pos h, if_pos hq] using hwrest
      · refine ⟨?_, ?_⟩
        · simpa [setItemQuantity, h, hq] using hnd
        · intro x hx
          simp only [setItemQuantity, if_pos h, if_neg hq, List.mem_cons] at hx
          rcases hx with hx | hx
          · simp [hx]; omega
          · exact hqs x (List.mem_cons_of_mem it hx)
    · have ihw := ih hwrest
      refine ⟨?_, ?_⟩
      · simp only [setItemQuantity, if_neg h, List.map_cons, List.nodup_cons]
        exact ⟨fun hmem => hnd.1 (mem_map_product_id_setItemQuantity rest pid qty _ hmem),
          ihw.1⟩
      · intro x hx
        simp only [setItemQuantity, if_neg h, List.mem_cons] at hx
        rcases hx with hx | hx
        · exact hx ▸ hqs it (List.mem_cons_self it rest)
        · exact ihw.2 x hx

/-- C3: the cart operations preserve the cart invariants (at most one line
per `product_id`, every stored quantity at least 1): merging a line with a
positive quantity via `addItem`, any `setItemQuantity` call, and the empty
cart installed by `clear_cart`. -/
theorem cart_ops_preserve_invariants (cart : List CartItem) (pid pname : String)
    (qty : Int) (price : ℚ) (hw : CartWf cart) :
    (1 ≤ qty → CartWf (addItem cart pid pname qty price)) ∧
    CartWf (setItemQuantity cart pid qty) ∧
    CartWf ([] : List CartItem) :=
  ⟨fun hq => addItem_wf cart pid pname qty price hw hq,
   setItemQuantity_wf cart pid qty hw,
   by simp [CartWf]⟩

/-- Witness for C3 on a concrete singleton cart. -/
theorem cart_ops_preserve_invariants_witness :
    CartWf (addItem [⟨"a", "A", 2, 5⟩] "a" "A" 1 5) ∧
    CartWf (setItemQuantity [⟨"a", "A", 2, 5⟩] "a" 1) ∧
    CartWf ([] : List CartItem) :=
  ⟨(cart_ops_preserve_invariants [⟨"a", "A", 2, 5⟩] "a" "A" 1 5 (by decide)).1 (by decide),
   (cart_ops_preserve_invariants [⟨"a", "A", 2, 5⟩] "a" "A" 1 5 (by decide)).2.1,
   (cart_ops_preserve_invariants [⟨"a", "A", 2, 5⟩] "a" "A" 1 5 (by decide)).2.2⟩

/-- C4 counterexample: on a cart that already holds a line for `p` with
quantity 5, `add(p, 1)` followed by `add(p, 2)` yields the quantity
5 + 1 + 2 = 8, not the claimed q1 + q2 = 3 (the prior quantity is kept and
incremented), so the claim is false for such carts. -/
theorem add_add_quantity_counterexample :
    findLine (addItem (addItem [⟨"p", "orig", 5, 10⟩] "p" "n1" 1 1) "p" "n2" 2 1) "p" =
      some ⟨"p", "orig", 8, 10⟩ ∧ ¬ ((8 : Int) = 1 + 2) := by
  decide

lemma addItem_append_of_absent (cart : List CartItem) (pid pname : String)
    (qty : Int) (price : ℚ) (h : ∀ it ∈ cart, it.product_id ≠ pid) :
    addItem cart pid pname qty price = cart ++ [⟨pid, pname, qty, price⟩] := by
  induction cart with
  | nil => simp [addItem]
  | cons it rest ih =>
    have hne := h it (List.mem_cons_self it rest)
    simp only [addItem, if_neg hne, List.cons_append, List.cons.injEq, true_and]
    exact ih fun x hx => h x (List.mem_cons_of_mem it hx)

lemma addItem_append_merge (cart : List CartItem) (pid n1 n2 : String)
    (q1 q2 : Int) (pr1 pr2 : ℚ) (h : ∀ it ∈ cart, it.product_id ≠ pid) :
    addItem (cart ++ [⟨pid, n1, q1, pr1⟩]) pid n2 q2 pr2 =
      cart ++ [⟨pid, n1, q1 + q2, pr1⟩] := by
  induction cart with
  | nil => simp [addItem]
  | cons it rest ih =>
    have hne := h it (List.mem_cons_self it rest)
    simp only [List.cons_append, addItem, if_neg hne, List.cons.injEq, true_and]
    exact ih fun x hx => h x (List.mem_cons_of_mem it hx)

lemma findLine_append_self (cart : List CartItem) (pid n1 : String)
    (q : Int) (pr : ℚ) (h : ∀ it ∈ cart, it.product_id ≠ pid) :
    findLine (cart ++ [⟨pid, n1, q, pr⟩]) pid = some ⟨pid, n1, q, pr⟩ := by
  induction cart with
  | nil => simp [findLine]
  | cons it rest ih =>
    have hne := h it (List.mem_cons_self it rest)
    simp only [findLine] at ih ⊢
    rw [List.cons_append, List.find?_cons_of_neg _ (by simp [hne])]
    exact ih fun x hx => h x (List.mem_cons_of_mem it hx)

/-- C4 (amended): for a cart holding no line for `p`, `add(p, q1)` appends
a new line carrying the first add's name/price snapshot, and a subsequent
`add(p, q2)` only increments its quantity to `q1 + q2`, keeping the first
add's snapshot (the second add refreshes nothing). -/
theorem add_add_fresh_product_spec (cart : List CartItem) (pid n1 n2 : String)
    (q1 q2 : Int) (pr1 pr2 : ℚ) (h : ∀ it ∈ cart, it.product_id ≠ pid) :
    addItem cart pid n1 q1 pr1 = cart ++ [⟨pid, n1, q1, pr1⟩] ∧
    findLine (addItem (addItem cart pid n1 q1 pr1) pid n2 q2 pr2) pid =
      some ⟨pid, n1, q1 + q2, pr1⟩ := by
  have happ := addItem_append_of_absent cart pid n1 q1 pr1 h
  refine ⟨happ, ?_⟩
  rw [happ, addItem_append_merge cart pid n1 n2 q1 q2 pr1 pr2 h]
  exact findLine_append_self cart pid n1 (q1 + q2) pr1 h

/-- Witness for C4 (amended) starting from the empty cart. -/
theorem add_add_fresh_product_spec_witness :
    addItem [] "a" "A" 1 5 = [⟨"a", "A", 1, 5⟩] ∧
    findLine (addItem (addItem [] "a" "A" 1 5) "a" "B" 2 7) "a" =
      some ⟨"a", "A", 1 + 2, 5⟩ :=
  add_add_fresh_product_spec [] "a" "A" "B" 1 2 5 7 (by simp)

lemma findLine_eq_none_iff (cart : List CartItem) (pid : String) :
    findLine cart pid = none ↔ ∀ it ∈ cart, it.product_id ≠ pid := by
  simp [findLine, List.find?_eq_none]

lemma setItemQuantity_of_absent (cart : List CartItem) (pid : String) (qty : Int)
    (h : ∀ it ∈ cart, it.product_id ≠ pid) :
    setItemQuantity cart pid qty = cart := by
  induction cart with
  | nil => simp [setItemQuantity]
  | cons it rest ih =>
    have hne := h it (List.mem_cons_self it rest)
    simp only [setItemQuantity, if_neg hne, List.cons.injEq, true_and]
    exact ih fun x hx => h x (List.mem_cons_of_mem it hx)

/-- C5: with `quantity ≤ 0`, `setItemQuantity` removes `p`'s line when
present (shrinking the cart by exactly one line and leaving no line for
`p`) and leaves a cart without `p` untouched; with `quantity > 0` it
overwrites the existing line's quantity in place, preserving the stored
`product_id`s (in particular it never creates a line for an absent `p`). -/
theorem update_cart_item_quantity_spec (cart : List CartItem) (pid : String) (qty : Int)
    (hnd : (cart.map fun it => it.product_id).Nodup) :
    (findLine cart pid = none → setItemQuantity cart pid qty = cart) ∧
    (qty ≤ 0 → ∀ it0, findLine cart pid = some it0 →
      (setItemQuantity cart pid qty).length + 1 = cart.length ∧
      findLine (setItemQuantity cart pid qty) pid = none) ∧
    (0 < qty →
      (setItemQuantity cart pid qty).map (fun it => it.product_id) =
        cart.map (fun it => it.product_id) ∧
      ∀ it0, findLine cart pid = some it0 →
        findLine (setItemQuantity cart pid qty) pid =
          some { it0 with quantity := qty }) := by
  refine ⟨fun h => setItemQuantity_of_absent cart pid qty
    ((findLine_eq_none_iff cart pid).mp h), ?_, ?_⟩
  · intro hq it0 hfind
    induction cart with
    | nil => simp [findLine] at hfind
    | cons it rest ih =>
      simp only [List.map_cons, List.nodup_cons] at hnd
      by_cases h : it.product_id = pid
      · refine ⟨by simp [setItemQuantity, h, hq], ?_⟩
        rw [setItemQuantity, if_pos h, if_pos hq, findLine_eq_none_iff]
        intro x hx hxp
        apply hnd.1
        rw [h, ← hxp]
        exact List.mem_map.mpr ⟨x, hx, rfl⟩
      · have hfind2 : findLine rest pid = some it0 := by
          simpa [findLine, List.find?_cons, h] using hfind
        have := ih hnd.2 hfind2
        refine ⟨by simpa [setItemQuantity, h] using this.1, ?_⟩
        rw [setItemQuantity, if_neg h]
        simpa [findLine, List.find?_cons, h] using this.2
  · intro hq
    have hq0 : ¬ qty ≤ 0 := by omega
    constructor
    · induction cart with
      | nil => simp [setItemQuantity]
      | cons it rest ih =>
        simp only [List.map_cons, List.nodup_cons] at hnd
        by_cases h : it.product_id = pid
        · simp [setItemQuantity, h, hq0]
        · simp only [setItemQuantity, if_neg h, List.map_cons, List.cons.injEq, true_and]
          exact ih hnd.2
    · intro it0 hfind
      induction cart with
      | nil => simp [findLine] at hfind
      | cons it rest ih =>
        simp only [List.map_cons, List.nodup_cons] at hnd
        by_cases h : it.product_id = pid
        · have : it = it0 := by simpa [findLine, List.find?_cons, h] using hfind
          subst this
          rw [setItemQuantity, if_pos h, if_neg hq0]
          simp [findLine, List.find?_cons, h]
        · have hfind2 : findLine rest pid = some it0 := by
            simpa [findLine, List.find?_cons, h] using hfind
          rw [setItemQuantity, if_neg h]
          simpa [findLine, List.find?_cons, h] using ih hnd.2 hfind2

/-- Witness for C5: removing the only line of a concrete cart. -/
theorem update_cart_item_quantity_spec_witness :
    (setItemQuantity [⟨"a", "A", 2, 5⟩] "a" 0).length + 1 =
      ([⟨"a", "A", 2, 5⟩] : List CartItem).length ∧
    findLine (setItemQuantity [⟨"a", "A", 2, 5⟩] "a" 0) "a" = none :=
  (update_cart_item_quantity_spec [⟨"a", "A", 2, 5⟩] "a" 0 (by decide)).2.1
    (by decide) ⟨"a", "A", 2, 5⟩ (by decide)

/-! ### Cart mutation for an unknown user (C10) -/

/-- C10: `add_to_cart` for a `telegram_id` with no user document is a
silent no-op — the database is unchanged and a subsequent
`get_user_cart` still returns the empty list. -/
theorem add_to_cart_unknown_user_spec (db : Db) (tid : Int) (pid pname : String)
    (qty : Int) (price : ℚ)
    (h : db.users.find? (fun u => u.telegram_id = tid) = none) :
    add_to_cart db tid pid pname qty price = db ∧
    get_user_cart (add_to_cart db tid pid pname qty price) tid = [] := by
  have h1 : add_to_cart db tid pid pname qty price = db := by
    unfold add_to_cart
    rw [h]
  refine ⟨h1, ?_⟩
  rw [h1]
  unfold get_user_cart
  rw [h]

/-- Witness for C10: the empty database has no user with id 1. -/
theorem add_to_cart_unknown_user_spec_witness :
    add_to_cart emptyDb 1 "a" "A" 1 5 = emptyDb ∧
    get_user_cart (add_to_cart emptyDb 1 "a" "A" 1 5) 1 = [] :=
  add_to_cart_unknown_user_spec emptyDb 1 "a" "A" 1 5 rfl

/-! ### Checkout confirmation (C2) -/

lemma find?_set_cart_of_user_self (users : List UserDoc) (tid : Int) (cart : List CartItem) :
    (set_cart_of_user users tid cart).find? (fun u => u.telegram_id = tid) =
      (users.find? fun u => u.telegram_id = tid).map fun u => { u with cart := cart } := by
  induction users with
  | nil => simp [set_cart_of_user]
  | cons u rest ih =>
    by_cases h : u.telegram_id = tid
    · simp [set_cart_of_user, h, List.find?]
    · simp [set_cart_of_user, h, List.find?, ih]

lemma get_user_cart_clear_cart (db : Db) (tid : Int) :
    get_user_cart (clear_cart db tid) tid = [] := by
  simp only [get_user_cart, clear_cart]
  rw [find?_set_cart_of_user_self]
  cases db.users.find? fun u => u.telegram_id = tid <;> simp

lemma demoPickupCtx_eq :
    demoPickupCtx =
      { checkout_cart := demoCart, delivery_type := some "pickup",
        delivery_cost := some 0, address := some PICKUP_ADDRESS,
        customer_name := none, phone := none, comment := none } := by
  rfl

lemma cartTotal_demoCart : cartTotal demoCart = 513 / 10 := by
  norm_num [cartTotal, demoCart]

/-- C2: confirming the order records a total equal to
Σ quantity · unitPrice over the snapshot cart, persists a new order that
carries a copy of the cart lines and the freshly issued sequence number
(the counter is advanced past it), and leaves the user's live cart empty;
for the `demoCart` pickup scenario the order total is 51.30, the delivery
cost is 0 and the cart is empty afterwards. -/
theorem confirm_order_spec (db : Db) (tid : Int) (ud : CheckoutCtx) :
    (confirm_order_action db tid ud).1.total = cartTotal ud.checkout_cart ∧
    (confirm_order_action db tid ud).1.items = ud.checkout_cart ∧
    (confirm_order_action db tid ud).1.order_number =
      (db.counters "order_number").getD 0 + 1 ∧
    (confirm_order_action db tid ud).2.counters "order_number" =
      some ((db.counters "order_number").getD 0 + 1) ∧
    (confirm_order_action db tid ud).2.orders =
      db.orders ++ [(confirm_order_action db tid ud).1] ∧
    get_user_cart (confirm_order_action db tid ud).2 tid = [] ∧
    cartTotal demoCart = 513 / 10 ∧
    (confirm_order_action db tid demoPickupCtx).1.total = 513 / 10 ∧
    (confirm_order_action db tid demoPickupCtx).1.delivery_cost = 0 ∧
    get_user_cart (confirm_order_action db tid demoPickupCtx).2 tid = [] := by
  refine ⟨rfl, rfl, rfl, rfl, rfl, get_user_cart_clear_cart _ tid, cartTotal_demoCart,
    ?_, ?_, get_user_cart_clear_cart _ tid⟩
  · show cartTotal demoPickupCtx.checkout_cart = 513 / 10
    rw [demoPickupCtx_eq]
    exact cartTotal_demoCart
  · show demoPickupCtx.delivery_cost.getD 0 = 0
    rw [demoPickupCtx_eq]
    rfl

/-! ### Guided-input validation failure (C6) -/

/-- C6 counterexample: a non-numeric Telegram id entered in the add-admin
state does not keep the dialogue in the add-admin state — the handler
returns `ConversationHandler.END`, which is a different state. -/
theorem admin_add_admin_invalid_input_counterexample :
    (admin_add_admin_handler emptyDb 1 "abc").1 = AdminState.admin_conv_end ∧
    AdminState.admin_conv_end ≠ AdminState.admin_add_admin := by
  refine ⟨?_, by decide⟩
  rfl

/-- C6 (amended): on a validation failure neither handler mutates the
database or the context; the add-product-price handler re-prompts and
stays in `ADMIN_ADD_PRODUCT_PRICE`, while the add-admin handler replies
with a format error and returns `ConversationHandler.END` (ending the
admin conversation) instead of staying in the add-admin state. -/
theorem invalid_input_handlers_spec (db : Db) (senderId : Int) (ud : AdminCtx)
    (s t : String) (hs : parse_int s = none)
    (ht : parse_float (replace_commas t) = none) :
    admin_add_admin_handler db senderId s = (AdminState.admin_conv_end, db) ∧
    admin_add_product_price_handler ud t = (AdminState.admin_add_product_price, ud) := by
  constructor
  · rw [admin_add_admin_handler, hs]
  · rw [admin_add_product_price_handler, ht]

/-- Witness for C6 (amended) on the input `"abc"`. -/
theorem invalid_input_handlers_spec_witness :
    admin_add_admin_handler emptyDb 1 "abc" = (AdminState.admin_conv_end, emptyDb) ∧
    admin_add_product_price_handler ⟨none, none, none⟩ "abc" =
      (AdminState.admin_add_product_price, ⟨none, none, none⟩) :=
  invalid_input_handlers_spec emptyDb 1 ⟨none, none, none⟩ "abc" "abc" (by decide) (by decide)

/-! ### Category deletion cascade (C7) -/

lemma mem_of_mem_delete_one_category (cats : List CategoryDoc) (cid : String) :
    ∀ c ∈ delete_one_category cats cid, c ∈ cats := by
  induction cats with
  | nil => simp [delete_one_category]
  | cons d rest ih =>
    intro c hc
    by_cases h : d.id = cid
    · rw [delete_one_category, if_pos h] at hc
      exact List.mem_cons_of_mem d hc
    · rw [delete_one_category, if_neg h] at hc
      rcases List.mem_cons.mp hc with rfl | hc
      · exact List.mem_cons_self _ _
      · exact List.mem_cons_of_mem d (ih c hc)

lemma mem_delete_one_category_of_ne (cats : List CategoryDoc) (cid : String)
    (c : CategoryDoc) (hc : c.id ≠ cid) (hmem : c ∈ cats) :
    c ∈ delete_one_category cats cid := by
  induction cats with
  | nil => simp at hmem
  | cons d rest ih =>
    by_cases h : d.id = cid
    · rw [delete_one_category, if_pos h]
      rcases List.mem_cons.mp hmem with rfl | hm
      · exact absurd h hc
      · exact hm
    · rw [delete_one_category, if_neg h]
      rcases List.mem_cons.mp hmem with rfl | hm
      · exact List.mem_cons_self _ _
      · exact List.mem_cons_of_mem d (ih hm)

lemma delete_one_category_id_ne (cats : List CategoryDoc) (cid : String)
    (hnd : (cats.map fun c => c.id).Nodup) :
    ∀ c ∈ delete_one_category cats cid, c.id ≠ cid := by
  induction cats with
  | nil => simp [delete_one_category]
  | cons d rest ih =>
    simp only [List.map_cons, List.nodup_cons] at hnd
    intro c hc
    by_cases h : d.id = cid
    · rw [delete_one_category, if_pos h] at hc
      intro hceq
      exact hnd.1 (List.mem_map.mpr ⟨c, hc, hceq.trans h.symm⟩)
    · rw [delete_one_category, if_neg h] at hc
      rcases List.mem_cons.mp hc with rfl | hc
      · exact h
      · exact ih hnd.2 c hc

/-- C7: deleting a category removes every direct subcategory
(`parent_id = cid`) and the category itself, and removes exactly the
products whose `category_id` equals the deleted top-level id — products
that belonged to the deleted subcategories survive. -/
theorem delete_category_spec (db : Db) (cid : String)
    (hnd : (db.categories.map fun c => c.id).Nodup) :
    (∀ c ∈ (delete_category db cid).categories, c.parent_id ≠ some cid ∧ c.id ≠ cid) ∧
    (∀ c ∈ db.categories, c.parent_id ≠ some cid → c.id ≠ cid →
      c ∈ (delete_category db cid).categories) ∧
    (∀ p : ProductDoc, p ∈ (delete_category db cid).products ↔
      p ∈ db.products ∧ p.category_id ≠ cid) := by
  have hndf : (((db.categories.filter fun c => !(c.parent_id = some cid : Bool)).map
      fun c => c.id)).Nodup :=
    hnd.sublist (List.Sublist.map _ (List.filter_sublist db.categories))
  refine ⟨?_, ?_, ?_⟩
  · intro c hc
    have hmem := mem_of_mem_delete_one_category _ cid c hc
    have hid := delete_one_category_id_ne _ cid hndf c hc
    have hpar : c.parent_id ≠ some cid := by
      have h2 := (List.mem_filter.mp hmem).2
      simpa using h2
    exact ⟨hpar, hid⟩
  · intro c hc hpar hid
    exact mem_delete_one_category_of_ne _ cid c hid
      (List.mem_filter.mpr ⟨hc, by simpa using hpar⟩)
  · intro p
    constructor
    · intro hp
      have := List.mem_filter.mp hp
      exact ⟨this.1, by simpa using this.2⟩
    · intro hp
      exact List.mem_filter.mpr ⟨hp.1, by simpa using hp.2⟩

/-- Witness for C7 on the concrete catalog `demoCatalogDb`: deleting `c`
removes `s1`, `s2`, `c` and the product `p1`, while `p2` (attached to the
subcategory `s1`) survives. -/
theorem delete_category_spec_witness :
    (∀ c ∈ (delete_category demoCatalogDb "c").categories,
      c.parent_id ≠ some "c" ∧ c.id ≠ "c") ∧
    (∀ c ∈ demoCatalogDb.categories, c.parent_id ≠ some "c" → c.id ≠ "c" →
      c ∈ (delete_category demoCatalogDb "c").categories) ∧
    (∀ p : ProductDoc, p ∈ (delete_category demoCatalogDb "c").products ↔
      p ∈ demoCatalogDb.products ∧ p.category_id ≠ "c") :=
  delete_category_spec demoCatalogDb "c" (by decide)

end SushiBot
